import Mathlib

/-!
Shallow embedding of the izyfo triangular-arbitrage detection core
(`src/izyfo_arbitrage/`): the quantizer, the leg transaction model
(`arbitrage_transaction.rs`), the triangle evaluator (`arbitrage.rs`)
and the topology builder (`arbitrage_executor.rs`).

Modelling conventions:
- `f32`/`f64` market values are embedded as exact rationals `ℚ`
  (the embedding abstracts floating-point rounding and NaN for price
  and quantity fields);
- the `step_size`/`tick_size` grids, which the source checks with
  `is_nan`, are embedded as `F32`, a rational together with an explicit
  NaN constructor;
- `Uuid::new_v4()` and `Utc::now()` (randomness and wall clock) are
  omitted from the embedded records;
- Rust `usize` subtraction `len - 2` is embedded as truncated `Nat`
  subtraction.
-/

/-- An `f32` value as the source uses it for the quantization grids:
either NaN or an exact rational. -/
inductive F32 where
  | nan : F32
  | val (x : ℚ) : F32
deriving DecidableEq

/-- Integer part of a rational, truncated toward zero, as `f32::trunc`. -/
def truncInt (q : ℚ) : ℤ :=
  if q < 0 then ⌈q⌉ else ⌊q⌋

/-- `f32::trunc` on the rational embedding. -/
def ratTrunc (q : ℚ) : ℚ :=
  (truncInt q : ℚ)

/-- Number of fractional digits of the terminating decimal expansion of
`q` (0 when the expansion does not terminate within the `f32` range).
Used to embed the length of Rust's shortest-round-trip `to_string`. -/
def fracLen (q : ℚ) : ℕ :=
  (((List.range 200).find? fun k => (q * 10 ^ k).den == 1)).getD 0

/-- Length of the decimal string `to_string` prints for the rational
embedding of an `f32`: optional sign, integer-part digits, and a dot
followed by the fractional digits when there are any. -/
def decStrLen (q : ℚ) : ℕ :=
  (if q < 0 then 1 else 0)
    + (Nat.toDigits 10 (truncInt q).natAbs).length
    + (if fracLen q = 0 then 0 else 1 + fracLen q)

/-- Modelled from the spec: `izyfo_utils::math::round_down` (the module
is not under `src/`); §4.1: keep `d` fractional digits, rounding down:
`floor(x · 10^d) / 10^d`. -/
def round_down (x : ℚ) (d : ℕ) : ℚ :=
  ((⌊x * 10 ^ d⌋ : ℤ) : ℚ) / 10 ^ d

/-- The quantizer shared by `ArbitrageTransaction::normalize_qty` and
`ArbitrageTransaction::normalize_price`: NaN grid passes the value
through, grid `1.0` truncates, otherwise keep
`len(to_string(grid)) - 2` fractional digits, rounding down. -/
def round_down_to_grid (grid : F32) (x : ℚ) : ℚ :=
  match grid with
  | F32.nan => x
  | F32.val s =>
    if s = 1 then ratTrunc x
    else round_down x (decStrLen s - 2)

/-- Modelled from the spec: `izyfo_events::exchange::market_bbo::MarketBBO`
(the module is not under `src/`); §3 "BBO tick" record, with the getter
methods the core calls embedded as fields. -/
structure MarketBBO where
  instrument : String
  ask_price : ℚ
  bid_price : ℚ
  min_price : ℚ
  max_price : ℚ
  ask_qty : ℚ
  bid_qty : ℚ
  min_qty : ℚ
  max_qty : ℚ
  step_size : F32
  tick_size : F32
  marketdata_timestamp : ℚ
  created_timestamp_ms : ℤ
deriving DecidableEq

/-- `ArbitrageTransaction` (arbitrage_transaction.rs, lines 10-31). -/
structure ArbitrageTransaction where
  name : String
  source : String
  target : String
  operation : String
  instrument : String
  exchange_code : String
  ask_price : ℚ
  bid_price : ℚ
  min_price : ℚ
  max_price : ℚ
  ask_qty : ℚ
  bid_qty : ℚ
  min_qty : ℚ
  max_qty : ℚ
  step_size : F32
  tick_size : F32
  tick_timestamp : ℚ
  trade_fee : ℚ × String
  ready : Bool
deriving DecidableEq

/-- `ArbitrageTransactionResult` (arbitrage_transaction.rs, lines 33-56);
`uuid` omitted (randomness). -/
structure ArbitrageTransactionResult where
  name : String
  source : String
  target : String
  operation : String
  instrument : String
  exchange_code : String
  qty_in : ℚ
  qty_out : ℚ
  qty_out_r : ℚ
  qty_to_execute : ℚ
  price : ℚ
  fee : ℚ
  step_size : F32
  tick_size : F32
  min_price : ℚ
  max_price : ℚ
  min_qty : ℚ
  max_qty : ℚ
  tick_timestamp : ℚ
  market_qty : ℚ
deriving DecidableEq

/-- `ArbitrageTransactionResult::is_valid_ordering`. -/
def ArbitrageTransactionResult.is_valid_ordering (r : ArbitrageTransactionResult) : Bool :=
  decide (r.qty_to_execute ≤ r.market_qty)
    && decide (r.min_qty ≤ r.qty_to_execute)
    && decide (r.qty_to_execute ≤ r.max_qty)

/-- `ArbitrageTransaction::new`: zeroed market fields, fee `(0.001, "%")`,
not ready. -/
def ArbitrageTransaction.new (source target operation instrument exchange_code : String) :
    ArbitrageTransaction where
  name := source ++ "-(" ++ operation ++ ")->" ++ target
  source := source
  target := target
  operation := operation
  instrument := instrument
  exchange_code := exchange_code
  ask_price := 0
  bid_price := 0
  min_price := 0
  max_price := 0
  ask_qty := 0
  bid_qty := 0
  min_qty := 0
  max_qty := 0
  step_size := F32.val 0
  tick_size := F32.val 0
  tick_timestamp := 0
  trade_fee := (1 / 1000, "%")
  ready := false

/-- `ArbitrageTransaction::update`: copy every tick field, set ready. -/
def ArbitrageTransaction.update (t : ArbitrageTransaction) (tick : MarketBBO) :
    ArbitrageTransaction :=
  { t with
    ask_price := tick.ask_price
    bid_price := tick.bid_price
    min_price := tick.min_price
    max_price := tick.max_price
    ask_qty := tick.ask_qty
    bid_qty := tick.bid_qty
    min_qty := tick.min_qty
    max_qty := tick.max_qty
    step_size := tick.step_size
    tick_size := tick.tick_size
    tick_timestamp := tick.marketdata_timestamp
    ready := true }

/-- The readiness errors of `ArbitrageTransaction::is_valid`, one per
source branch, carrying the interpolated field value. (The source
encodes them as formatted strings; the message label of the third and
fourth branches repeats "invalid bid price" even though they interpolate
`ask_qty` resp. `bid_qty`.) -/
inductive ReadyError where
  | invalidAsk (v : ℚ) : ReadyError
  | invalidBid (v : ℚ) : ReadyError
  | invalidAskQty (v : ℚ) : ReadyError
  | invalidBidQty (v : ℚ) : ReadyError
deriving DecidableEq

/-- `ArbitrageTransaction::is_valid` (the spec's `is_ready_ok`). -/
def ArbitrageTransaction.is_valid (t : ArbitrageTransaction) : Except ReadyError Bool :=
  if t.ask_price ≤ 0 then .error (.invalidAsk t.ask_price)
  else if t.bid_price ≤ 0 then .error (.invalidBid t.bid_price)
  else if t.ask_qty ≤ 0 then .error (.invalidAskQty t.ask_qty)
  else if t.bid_qty ≤ 0 then .error (.invalidBidQty t.bid_qty)
  else .ok true

/-- `ArbitrageTransaction::normalize_qty`. -/
def ArbitrageTransaction.normalize_qty (t : ArbitrageTransaction) (qty : ℚ) : ℚ :=
  round_down_to_grid t.step_size qty

/-- `ArbitrageTransaction::normalize_price`. -/
def ArbitrageTransaction.normalize_price (t : ArbitrageTransaction) (price : ℚ) : ℚ :=
  round_down_to_grid t.tick_size price

/-- `ArbitrageTransaction::execute` (arbitrage_transaction.rs,
lines 181-296). -/
def ArbitrageTransaction.execute (t : ArbitrageTransaction) (qty_in : ℚ) :
    ArbitrageTransactionResult :=
  if t.operation = "BUY" then
    let price := t.normalize_price t.ask_price
    let qty_to_execute := t.normalize_qty (qty_in / price)
    let fee : ℚ := if t.trade_fee.2 = "%" then qty_to_execute * t.trade_fee.1 else 0
    let qty_out := qty_to_execute - fee
    { name := t.name, source := t.source, target := t.target,
      instrument := t.instrument, operation := t.operation,
      tick_timestamp := t.tick_timestamp,
      qty_in := qty_in, qty_out := qty_out, qty_out_r := 0,
      qty_to_execute := qty_to_execute, fee := fee, price := price,
      step_size := t.step_size, tick_size := t.tick_size,
      min_price := t.min_price, max_price := t.max_price,
      min_qty := t.min_qty, max_qty := t.max_qty,
      exchange_code := t.exchange_code,
      market_qty := t.ask_qty }
  else if t.operation = "SELL" then
    let normalize_qty := t.normalize_qty qty_in
    let price := t.normalize_price t.bid_price
    let qty_out0 := normalize_qty * price
    let fee : ℚ := if t.trade_fee.2 = "%" then qty_out0 * t.trade_fee.1 else 0
    let qty_out := qty_out0 - fee
    { name := t.name, source := t.source, target := t.target,
      instrument := t.instrument, operation := t.operation,
      tick_timestamp := t.tick_timestamp,
      qty_in := qty_in, qty_out_r := 0, qty_out := qty_out,
      qty_to_execute := normalize_qty, fee := fee, price := price,
      step_size := t.step_size, tick_size := t.tick_size,
      min_price := t.min_price, max_price := t.max_price,
      min_qty := t.min_qty, max_qty := t.max_qty,
      exchange_code := t.exchange_code,
      market_qty := t.bid_qty }
  else
    { name := t.name, source := t.source, target := t.target,
      instrument := t.instrument, operation := t.operation,
      tick_timestamp := t.tick_timestamp,
      qty_in := qty_in, qty_out := qty_in,
      qty_to_execute := 0, fee := 0, price := 0,
      step_size := t.step_size, tick_size := t.tick_size,
      min_price := t.min_price, max_price := t.max_price,
      min_qty := t.min_qty, max_qty := t.max_qty,
      qty_out_r := 0,
      exchange_code := t.exchange_code,
      market_qty := t.ask_qty }

/-- `ArbitrageProfit` (arbitrage.rs, lines 18-26); `create_at` (wall
clock) and `uuid` (randomness) omitted. -/
structure ArbitrageProfit where
  name : String
  tick_timestamp : ℚ
  tick_received_timestamp_ms : ℤ
  transaction_result_list : List ArbitrageTransactionResult
deriving DecidableEq

/-- `Arbitrage` (arbitrage.rs, lines 119-124); the unused `markets` map
is omitted. -/
structure Arbitrage where
  name : String
  transaction_list : List ArbitrageTransaction
  instrument_list : List String
deriving DecidableEq

/-- The tick-update phase of `Arbitrage::execute` (arbitrage.rs,
lines 176-181): every transaction whose instrument matches the tick is
overwritten from the tick. -/
def updateLegs (l : List ArbitrageTransaction) (tick : MarketBBO) :
    List ArbitrageTransaction :=
  l.map fun t => if t.instrument = tick.instrument then t.update tick else t

/-- The threaded-evaluation phase of `Arbitrage::execute` (arbitrage.rs,
lines 183-193): a transaction passing `is_valid` is executed and its
`qty_out` threaded to the next; a failing one is skipped and the
quantity carried unchanged. -/
def runLegs : List ArbitrageTransaction → ℚ → List ArbitrageTransactionResult
  | [], _ => []
  | t :: rest, q =>
    match t.is_valid with
    | .ok _ =>
      let r := t.execute q
      r :: runLegs rest r.qty_out
    | .error _ => runLegs rest q

/-- The ratio accumulation of `Arbitrage::execute` (arbitrage.rs,
lines 197-206): `qty_to_execute / market_qty` over the results failing
`is_valid_ordering`. -/
def ratio_list (rs : List ArbitrageTransactionResult) : List ℚ :=
  rs.filterMap fun t =>
    if t.is_valid_ordering then none else some (t.qty_to_execute / t.market_qty)

/-- The fold of `Arbitrage::execute` (arbitrage.rs, lines 209-214):
maximum of a list of ratios, starting from 0. -/
def max_value (l : List ℚ) : ℚ :=
  l.foldl (fun m v => if v > m then v else m) 0

/-- `Arbitrage::execute` (arbitrage.rs, lines 164-238). The Rust
`&mut self` receiver is embedded by returning the updated `Arbitrage`
alongside the optional profit. -/
def Arbitrage.execute (a : Arbitrage) (market_bbo : MarketBBO) (qty_initial : ℚ)
    (scale : Bool) : Option ArbitrageProfit × Arbitrage :=
  let ts := updateLegs a.transaction_list market_bbo
  let a2 : Arbitrage := { a with transaction_list := ts }
  let rs := runLegs ts qty_initial
  if rs.length = 3 then
    if scale then
      let m := max_value (ratio_list rs)
      if m > 1 then
        Arbitrage.execute a2 market_bbo (qty_initial / m) false
      else
        (none, a2)
    else
      (some { name := a.name,
              tick_timestamp := market_bbo.marketdata_timestamp,
              tick_received_timestamp_ms := market_bbo.created_timestamp_ms,
              transaction_result_list := rs }, a2)
  else
    (none, a2)
termination_by scale.toNat
decreasing_by simp_all

/-- One transaction hash of the topology builder
(`ArbitrageExecutor::initialize`): the five string entries it inserts. -/
structure TransactionSpec where
  source : String
  target : String
  operation : String
  instrument : String
  exchange_code : String
deriving DecidableEq

/-- Edge resolution of `ArbitrageExecutor::initialize` (one of the three
identical blocks, e.g. arbitrage_executor.rs lines 112-129): try the
`{exchange}_{A}_{B}` instrument as a SELL, then `{exchange}_{B}_{A}` as
a BUY, else fail. -/
def resolveEdge (exchange : String) (db : List String) (a b : String) :
    Option TransactionSpec :=
  let instrument_a := exchange ++ "_" ++ a ++ "_" ++ b
  let instrument_b := exchange ++ "_" ++ b ++ "_" ++ a
  if instrument_a ∈ db then
    some { source := exchange ++ "_" ++ a, target := exchange ++ "_" ++ b,
           operation := "SELL", instrument := instrument_a,
           exchange_code := a ++ b }
  else if instrument_b ∈ db then
    some { source := exchange ++ "_" ++ a, target := exchange ++ "_" ++ b,
           operation := "BUY", instrument := instrument_b,
           exchange_code := b ++ a }
  else
    none

/-- The fixed 6-permutation list of `ArbitrageExecutor::initialize`
(arbitrage_executor.rs lines 95-102), in source order. -/
def perms3 (x y z : String) : List (String × String × String) :=
  [(x, y, z), (x, z, y), (y, x, z), (y, z, x), (z, x, y), (z, y, x)]

/-- Helper for `combinations3`: ordered pairs drawn left-to-right. -/
def pairs2 : List String → List (String × String)
  | [] => []
  | y :: ys => (ys.map fun z => (y, z)) ++ pairs2 ys

/-- `itertools`' `combinations(3)` over the symbol list: all
index-increasing triples in lexicographic index order. -/
def combinations3 : List String → List (String × String × String)
  | [] => []
  | x :: xs => ((pairs2 xs).map fun p => (x, p.1, p.2)) ++ combinations3 xs

/-- The permutation loop body of `ArbitrageExecutor::initialize`
(arbitrage_executor.rs lines 105-180): process the permutations of one
3-subset in order; a permutation whose first symbol is not the start
asset is skipped; a failed edge resolution executes the source's
`break`, which abandons the remaining permutations of this 3-subset;
a resolved permutation is emitted when its three instruments are in the
reference-data list. -/
def processPerms (exchange start_asset : String) (db ref : List String) :
    List (String × String × String) → List (List TransactionSpec)
  | [] => []
  | (s1, s2, s3) :: rest =>
    if s1 = start_asset then
      match resolveEdge exchange db s1 s2 with
      | none => []
      | some t1 =>
        match resolveEdge exchange db s2 s3 with
        | none => []
        | some t2 =>
          match resolveEdge exchange db s3 s1 with
          | none => []
          | some t3 =>
            (if t1.instrument ∈ ref ∧ t2.instrument ∈ ref ∧ t3.instrument ∈ ref
             then [[t1, t2, t3]] else [])
              ++ processPerms exchange start_asset db ref rest
    else
      processPerms exchange start_asset db ref rest

/-- The topology construction of `ArbitrageExecutor::initialize`
(arbitrage_executor.rs lines 76-184): enumerate the 3-subsets of the
symbol list, their 6 permutations, and collect the triangles the
permutation loop emits into `transactions_list`. -/
def buildTopology (exchange start_asset : String) (symbol_list db ref : List String) :
    List (List TransactionSpec) :=
  (combinations3 symbol_list).flatMap fun c =>
    processPerms exchange start_asset db ref (perms3 c.1 c.2.1 c.2.2)

/-- Both instrument-id directions of an edge, the disjunction the source
probes against the database instrument list. -/
def edgeResolvable (exchange : String) (db : List String) (a b : String) : Prop :=
  (exchange ++ "_" ++ a ++ "_" ++ b) ∈ db ∨ (exchange ++ "_" ++ b ++ "_" ++ a) ∈ db

/-! Concrete inputs used by the witness theorems: a BTC/USDT/ETH
triangle, its three ticks (ask = bid = 1, depth 1000), and a variant
tick with bid depth 1/2 that forces the rescale branch. -/

/-- Concrete tick for instrument E_BTC_USDT. -/
def tkBTCUSDT : MarketBBO :=
  { instrument := "E_BTC_USDT", ask_price := 1, bid_price := 1,
    min_price := 0, max_price := 1000000,
    ask_qty := 1000, bid_qty := 1000, min_qty := 0, max_qty := 1000000,
    step_size := F32.nan, tick_size := F32.nan,
    marketdata_timestamp := 1, created_timestamp_ms := 1 }

/-- Concrete tick for instrument E_ETH_USDT. -/
def tkETHUSDT : MarketBBO := { tkBTCUSDT with instrument := "E_ETH_USDT" }

/-- Concrete tick for instrument E_ETH_BTC. -/
def tkETHBTC : MarketBBO := { tkBTCUSDT with instrument := "E_ETH_BTC" }

/-- Concrete tick for E_BTC_USDT whose bid depth 1/2 is below the
quantity the first leg wants to execute. -/
def tkSmall : MarketBBO := { tkBTCUSDT with bid_qty := 1 / 2 }

/-- First leg of the concrete triangle. -/
def legBTCUSDT : ArbitrageTransaction :=
  ArbitrageTransaction.new "E_BTC" "E_USDT" "SELL" "E_BTC_USDT" "BTCUSDT"

/-- Concrete three-leg triangle, freshly constructed (no tick seen). -/
def triangleBTC : Arbitrage :=
  { name := "tri",
    transaction_list :=
      [legBTCUSDT,
       ArbitrageTransaction.new "E_USDT" "E_ETH" "BUY" "E_ETH_USDT" "ETHUSDT",
       ArbitrageTransaction.new "E_ETH" "E_BTC" "SELL" "E_ETH_BTC" "ETHBTC"],
    instrument_list := ["E_BTC_USDT", "E_ETH_USDT", "E_ETH_BTC"] }

/-- The triangle state after the first two ticks have been applied
(equal to the state produced by executing them; see the C1 theorem). -/
def triReady : Arbitrage :=
  { triangleBTC with
    transaction_list :=
      (updateLegs (updateLegs triangleBTC.transaction_list tkBTCUSDT) tkETHUSDT) }

/-- Like `triReady` but with the depth-limited first leg: the first
pass produces a maximal ratio of 2. -/
def triSmall : Arbitrage :=
  { triangleBTC with
    transaction_list :=
      (updateLegs (updateLegs triangleBTC.transaction_list tkSmall) tkETHUSDT) }

/-- A concrete SELL transaction with live market data. -/
def tSell : ArbitrageTransaction := legBTCUSDT.update tkBTCUSDT

/-- A concrete transaction with an operation that is neither BUY nor SELL. -/
def tUnknown : ArbitrageTransaction :=
  ArbitrageTransaction.new "E_BTC" "E_USDT" "HOLD" "E_BTC_USDT" "BTCUSDT"

/-- Concrete database/reference instrument list for the topology
witnesses. -/
def dbW : List String := ["E_A_B", "E_B_C", "E_C_A"]

/-- The triangle the topology builder emits for permutation (A, B, C)
of universe [A, B, C] over `dbW`. -/
def triW : List TransactionSpec :=
  [{ source := "E_A", target := "E_B", operation := "SELL",
     instrument := "E_A_B", exchange_code := "AB" },
   { source := "E_B", target := "E_C", operation := "SELL",
     instrument := "E_B_C", exchange_code := "BC" },
   { source := "E_C", target := "E_A", operation := "SELL",
     instrument := "E_C_A", exchange_code := "CA" }]

/-! ## Helper lemmas -/

lemma truncInt_intCast (n : ℤ) : truncInt (n : ℚ) = n := by
  unfold truncInt; split_ifs <;> simp

lemma ratTrunc_idem (x : ℚ) : ratTrunc (ratTrunc x) = ratTrunc x := by
  unfold ratTrunc; rw [truncInt_intCast]

lemma round_down_idem (x : ℚ) (d : ℕ) : round_down (round_down x d) d = round_down x d := by
  unfold round_down
  rw [div_mul_cancel₀ _ (by positivity : (10 : ℚ) ^ d ≠ 0), Int.floor_intCast]

lemma update_instrument (t : ArbitrageTransaction) (tick : MarketBBO) :
    (t.update tick).instrument = t.instrument := rfl

lemma update_update (t : ArbitrageTransaction) (tick : MarketBBO) :
    (t.update tick).update tick = t.update tick := rfl

lemma updateLegs_idem (l : List ArbitrageTransaction) (tick : MarketBBO) :
    updateLegs (updateLegs l tick) tick = updateLegs l tick := by
  induction l with
  | nil => rfl
  | cons t rest ih =>
    simp only [updateLegs, List.map_cons] at ih ⊢
    by_cases h : t.instrument = tick.instrument
    · simp [h, update_instrument, update_update, ih]
    · simp [h, ih]

lemma updateLegs_length (l : List ArbitrageTransaction) (tick : MarketBBO) :
    (updateLegs l tick).length = l.length := by
  simp [updateLegs]

lemma runLegs_length_le (l : List ArbitrageTransaction) (q : ℚ) :
    (runLegs l q).length ≤ l.length := by
  induction l generalizing q with
  | nil => simp [runLegs]
  | cons t rest ih =>
    simp only [runLegs]
    cases t.is_valid with
    | ok _ => simpa using ih (t.execute q).qty_out
    | error _ => exact le_trans (ih q) (by simp)

lemma runLegs_length_lt (l : List ArbitrageTransaction) (q : ℚ)
    (h : ∃ t ∈ l, t.is_valid.isOk = false) :
    (runLegs l q).length < l.length := by
  induction l generalizing q with
  | nil => simp at h
  | cons t rest ih =>
    obtain ⟨t0, ht0, hbad⟩ := h
    simp only [runLegs]
    rcases List.mem_cons.mp ht0 with rfl | hmem
    · cases hval : t0.is_valid with
      | ok _ => rw [hval] at hbad; simp [Except.isOk, Except.toBool] at hbad
      | error _ =>
        exact lt_of_le_of_lt (runLegs_length_le rest q) (by simp)
    · cases hval : t.is_valid with
      | ok _ =>
        simpa using ih (t.execute q).qty_out ⟨t0, hmem, hbad⟩
      | error _ =>
        exact lt_trans (ih q ⟨t0, hmem, hbad⟩) (by simp)

lemma execute_false_eq (a : Arbitrage) (tick : MarketBBO) (q : ℚ) :
    a.execute tick q false =
      (let ts := updateLegs a.transaction_list tick
       let a2 : Arbitrage := { a with transaction_list := ts }
       let rs := runLegs ts q
       if rs.length = 3 then
         (some { name := a.name,
                 tick_timestamp := tick.marketdata_timestamp,
                 tick_received_timestamp_ms := tick.created_timestamp_ms,
                 transaction_result_list := rs }, a2)
       else (none, a2)) := by
  rw [Arbitrage.execute]
  simp

lemma execute_state_false (a : Arbitrage) (tick : MarketBBO) (q : ℚ) :
    (a.execute tick q false).2 =
      { a with transaction_list := updateLegs a.transaction_list tick } := by
  rw [execute_false_eq]
  dsimp only
  split <;> rfl

lemma execute_state (a : Arbitrage) (tick : MarketBBO) (q : ℚ) (scale : Bool) :
    (a.execute tick q scale).2 =
      { a with transaction_list := updateLegs a.transaction_list tick } := by
  cases scale with
  | false => exact execute_state_false a tick q
  | true =>
    rw [Arbitrage.execute]
    dsimp only
    split
    · split
      · split
        · rw [execute_state_false]
          simp [updateLegs_idem]
        · rfl
      · rfl
    · rfl

lemma execute_false_updated (a : Arbitrage) (tick : MarketBBO) (q : ℚ) :
    ({ a with transaction_list := updateLegs a.transaction_list tick } : Arbitrage).execute
        tick q false = a.execute tick q false := by
  rw [execute_false_eq, execute_false_eq]
  dsimp only
  rw [updateLegs_idem]

lemma execute_none_of_not_three (a : Arbitrage) (tick : MarketBBO) (q : ℚ) (scale : Bool)
    (h : (runLegs (updateLegs a.transaction_list tick) q).length ≠ 3) :
    (a.execute tick q scale).1 = none := by
  cases scale with
  | false =>
    rw [execute_false_eq]
    dsimp only
    rw [if_neg h]
  | true =>
    rw [Arbitrage.execute]
    dsimp only
    rw [if_neg h]

/-! ## Claim theorems: quantizer and transaction model -/

/-- Claim C8: the grid quantizer is idempotent: rounding an already
rounded value down to the same grid leaves it unchanged, for every grid
(the NaN grid and the grid 1.0 included) with the retained digit count
derived from the grid's decimal-string length. -/
theorem round_down_to_grid_idem (g : F32) (x : ℚ) :
    round_down_to_grid g (round_down_to_grid g x) = round_down_to_grid g x := by
  unfold round_down_to_grid
  cases g with
  | nan => rfl
  | val s =>
    by_cases h : s = 1
    · simp [h, ratTrunc_idem]
    · simp [h, round_down_idem]

/-- Claim C6: the readiness check succeeds iff ask price, bid price,
ask quantity and bid quantity are all strictly positive, and otherwise
fails with the error of the first violated field in the order
ask price, bid price, ask quantity, bid quantity. -/
theorem readiness_check_iff (t : ArbitrageTransaction) :
    (t.is_valid = .ok true ↔
      0 < t.ask_price ∧ 0 < t.bid_price ∧ 0 < t.ask_qty ∧ 0 < t.bid_qty)
    ∧ (t.ask_price ≤ 0 → t.is_valid = .error (.invalidAsk t.ask_price))
    ∧ (0 < t.ask_price → t.bid_price ≤ 0 →
        t.is_valid = .error (.invalidBid t.bid_price))
    ∧ (0 < t.ask_price → 0 < t.bid_price → t.ask_qty ≤ 0 →
        t.is_valid = .error (.invalidAskQty t.ask_qty))
    ∧ (0 < t.ask_price → 0 < t.bid_price → 0 < t.ask_qty → t.bid_qty ≤ 0 →
        t.is_valid = .error (.invalidBidQty t.bid_qty)) := by
  unfold ArbitrageTransaction.is_valid
  split_ifs with h1 h2 h3 h4 <;>
    refine ⟨?_, ?_, ?_, ?_, ?_⟩ <;> simp_all

/-- Witness for C6 at a concrete live transaction. -/
theorem readiness_check_iff_witness : tSell.is_valid = .ok true :=
  (readiness_check_iff tSell).1.mpr (by decide)

/-- Claim C5: a SELL execution rounds the input quantity down to the
step grid, rounds the bid price down to the tick grid, charges the fee
on the gross proceeds before fee subtraction, returns the gross minus
that fee, and reports the bid quantity as market depth. -/
theorem sell_execution_fields (t : ArbitrageTransaction) (q : ℚ)
    (hop : t.operation = "SELL") (hfee : t.trade_fee.2 = "%") :
    (t.execute q).qty_to_execute = round_down_to_grid t.step_size q
    ∧ (t.execute q).price = round_down_to_grid t.tick_size t.bid_price
    ∧ (t.execute q).fee =
        (round_down_to_grid t.step_size q * round_down_to_grid t.tick_size t.bid_price)
          * t.trade_fee.1
    ∧ (t.execute q).qty_out =
        round_down_to_grid t.step_size q * round_down_to_grid t.tick_size t.bid_price
          - (t.execute q).fee
    ∧ (t.execute q).market_qty = t.bid_qty := by
  simp [ArbitrageTransaction.execute, hop, hfee, ArbitrageTransaction.normalize_qty,
    ArbitrageTransaction.normalize_price]

/-- Witness for C5 at a concrete SELL transaction and quantity 1. -/
theorem sell_execution_fields_witness :
    (tSell.execute 1).qty_to_execute = round_down_to_grid tSell.step_size 1
    ∧ (tSell.execute 1).price = round_down_to_grid tSell.tick_size tSell.bid_price
    ∧ (tSell.execute 1).fee =
        (round_down_to_grid tSell.step_size 1 * round_down_to_grid tSell.tick_size tSell.bid_price)
          * tSell.trade_fee.1
    ∧ (tSell.execute 1).qty_out =
        round_down_to_grid tSell.step_size 1 * round_down_to_grid tSell.tick_size tSell.bid_price
          - (tSell.execute 1).fee
    ∧ (tSell.execute 1).market_qty = tSell.bid_qty :=
  sell_execution_fields tSell 1 (by decide) (by decide)

/-- Claim C9: an operation that is neither BUY nor SELL passes the
quantity through unchanged and reports zero executed quantity, zero fee
and zero price, without failing. -/
theorem unknown_operation_passthrough (t : ArbitrageTransaction) (q : ℚ)
    (hb : t.operation ≠ "BUY") (hs : t.operation ≠ "SELL") :
    (t.execute q).qty_out = q ∧ (t.execute q).qty_to_execute = 0
    ∧ (t.execute q).fee = 0 ∧ (t.execute q).price = 0 := by
  simp [ArbitrageTransaction.execute, hb, hs]

/-- Witness for C9 at a concrete HOLD transaction and quantity 1. -/
theorem unknown_operation_passthrough_witness :
    (tUnknown.execute 1).qty_out = 1 ∧ (tUnknown.execute 1).qty_to_execute = 0
    ∧ (tUnknown.execute 1).fee = 0 ∧ (tUnknown.execute 1).price = 0 :=
  unknown_operation_passthrough tUnknown 1 (by decide) (by decide)

/-! ## Claim theorems: triangle evaluator -/

/-- Claim C1 (code bug): on the concrete reachable state `triReady`
(obtained by executing the first two ticks), the third tick makes all
three legs ready, the first pass accumulates three results, and no leg
exceeds market depth (maximal ratio ≤ 1); the spec requires the profit
to be emitted directly, but `Arbitrage::execute` with scaling enabled
returns `None`, while the same call with scaling disabled does return a
profit built from the same three leg results. -/
theorem scale_pass_no_violation_returns_none :
    ((triangleBTC.execute tkBTCUSDT 1 true).2.execute tkETHUSDT 1 true).2 = triReady
    ∧ (runLegs (updateLegs triReady.transaction_list tkETHBTC) 1).length = 3
    ∧ max_value (ratio_list (runLegs (updateLegs triReady.transaction_list tkETHBTC) 1)) ≤ 1
    ∧ (triReady.execute tkETHBTC 1 true).1 = none
    ∧ (triReady.execute tkETHBTC 1 false).1.isSome = true := by
  refine ⟨?_, by decide, by with_unfolding_all decide, ?_, ?_⟩
  · rw [execute_state, execute_state]
    rfl
  · rw [Arbitrage.execute]
    dsimp only
    rw [if_pos (by decide :
      (runLegs (updateLegs triReady.transaction_list tkETHBTC) 1).length = 3)]
    rw [if_pos rfl]
    rw [if_neg (by with_unfolding_all decide :
      ¬ max_value (ratio_list (runLegs (updateLegs triReady.transaction_list tkETHBTC) 1)) > 1)]
  · rw [execute_false_eq]
    dsimp only
    rw [if_pos (by decide :
      (runLegs (updateLegs triReady.transaction_list tkETHBTC) 1).length = 3)]
    rfl

/-- Claim C2: when the first pass accumulates three results and the
maximal ratio `m` over the results failing the ordering check exceeds 1,
the scaling-enabled call returns exactly the value of the call with the
initial quantity divided by `m` and scaling disabled; that recursive
call cannot recurse again. -/
theorem execute_scale_recurses_once (a : Arbitrage) (tick : MarketBBO) (q : ℚ)
    (h3 : (runLegs (updateLegs a.transaction_list tick) q).length = 3)
    (hm : max_value (ratio_list (runLegs (updateLegs a.transaction_list tick) q)) > 1) :
    a.execute tick q true =
      a.execute tick
        (q / max_value (ratio_list (runLegs (updateLegs a.transaction_list tick) q)))
        false := by
  conv_lhs => rw [Arbitrage.execute]
  dsimp only
  rw [if_pos h3]
  simp only [if_pos rfl]
  rw [if_pos hm]
  exact execute_false_updated a tick _

/-- Witness for C2 at the depth-limited concrete triangle: the maximal
ratio is 2 and the scaled call is returned. -/
theorem execute_scale_recurses_once_witness :
    (runLegs (updateLegs triSmall.transaction_list tkETHBTC) 1).length = 3
    ∧ max_value (ratio_list (runLegs (updateLegs triSmall.transaction_list tkETHBTC) 1)) > 1
    ∧ triSmall.execute tkETHBTC 1 true =
        triSmall.execute tkETHBTC
          (1 / max_value (ratio_list (runLegs (updateLegs triSmall.transaction_list tkETHBTC) 1)))
          false :=
  ⟨by with_unfolding_all decide, by with_unfolding_all decide,
    execute_scale_recurses_once triSmall tkETHBTC 1 (by with_unfolding_all decide)
      (by with_unfolding_all decide)⟩

/-- Claim C7: a leg failing the readiness check is skipped — it
contributes no result and the threaded quantity is carried to the next
leg unchanged; when fewer than three results accumulate the call
returns None; in particular, on a three-leg triangle, any leg left
invalid (for example by a tick carrying a zero or negative field) makes
the evaluation return None. -/
theorem invalid_leg_gives_none (a : Arbitrage) (tick : MarketBBO) (q : ℚ) (scale : Bool) :
    (∀ (t : ArbitrageTransaction) (rest : List ArbitrageTransaction) (e : ReadyError)
        (q0 : ℚ), t.is_valid = .error e → runLegs (t :: rest) q0 = runLegs rest q0)
    ∧ ((runLegs (updateLegs a.transaction_list tick) q).length < 3 →
        (a.execute tick q scale).1 = none)
    ∧ (a.transaction_list.length = 3 →
        (∃ t ∈ updateLegs a.transaction_list tick, t.is_valid.isOk = false) →
        (a.execute tick q scale).1 = none) := by
  refine ⟨?_, ?_, ?_⟩
  · intro t rest e q0 he
    simp only [runLegs, he]
  · intro hlt
    exact execute_none_of_not_three a tick q scale (Nat.ne_of_lt hlt)
  · intro hlen hbad
    apply execute_none_of_not_three a tick q scale
    apply Nat.ne_of_lt
    have := runLegs_length_lt (updateLegs a.transaction_list tick) q hbad
    rw [updateLegs_length, hlen] at this
    exact this

/-- Witness for C7: on the fresh triangle only the first tick's leg is
ready (the other two still carry zero prices), so the call returns
None. -/
theorem invalid_leg_gives_none_witness :
    (triangleBTC.execute tkBTCUSDT 1 true).1 = none :=
  (invalid_leg_gives_none triangleBTC tkBTCUSDT 1 true).2.2 (by decide)
    (by with_unfolding_all decide)

/-- Claim C10: a transaction whose instrument differs from the tick's
instrument is unchanged by `Arbitrage::execute` — all cached market
fields and the ready flag are kept; the state after the call holds the
very same transaction at the same position. -/
theorem tick_update_frame (a : Arbitrage) (tick : MarketBBO) (q : ℚ) (scale : Bool)
    (i : ℕ) (t0 : ArbitrageTransaction)
    (hget : a.transaction_list[i]? = some t0)
    (hne : t0.instrument ≠ tick.instrument) :
    (a.execute tick q scale).2.transaction_list[i]? = some t0 := by
  rw [execute_state]
  dsimp only
  simp only [updateLegs, List.getElem?_map, hget]
  simp [hne]

set_option maxRecDepth 4000 in
/-- Witness for C10: the E_BTC_USDT leg is untouched by an E_ETH_USDT
tick. -/
theorem tick_update_frame_witness :
    (triangleBTC.execute tkETHUSDT 1 true).2.transaction_list[0]? = some legBTCUSDT :=
  tick_update_frame triangleBTC tkETHUSDT 1 true 0 legBTCUSDT
    (by with_unfolding_all decide) (by decide)

lemma edgeResolvable_symm {ex : String} {db : List String} {a b : String}
    (h : edgeResolvable ex db a b) : edgeResolvable ex db b a := Or.symm h

lemma resolveEdge_isSome {ex : String} {db : List String} {a b : String}
    (h : edgeResolvable ex db a b) : (resolveEdge ex db a b).isSome = true := by
  unfold resolveEdge
  dsimp only
  split_ifs with h1 h2
  · rfl
  · rfl
  · rcases h with h | h
    · exact absurd h h1
    · exact absurd h h2

lemma resolveEdge_resolvable {ex : String} {db : List String} {a b : String}
    {t : TransactionSpec} (h : resolveEdge ex db a b = some t) :
    edgeResolvable ex db a b := by
  unfold resolveEdge at h
  dsimp only at h
  split_ifs at h with h1 h2
  · exact Or.inl h1
  · exact Or.inr h2

lemma resolveEdge_fields {ex : String} {db : List String} {a b : String}
    {t : TransactionSpec} (h : resolveEdge ex db a b = some t) :
    t.source = ex ++ "_" ++ a ∧ t.target = ex ++ "_" ++ b ∧ t.instrument ∈ db := by
  unfold resolveEdge at h
  dsimp only at h
  split_ifs at h with h1 h2
  · obtain rfl := Option.some.inj h
    exact ⟨rfl, rfl, h1⟩
  · obtain rfl := Option.some.inj h
    exact ⟨rfl, rfl, h2⟩

lemma perm_mem_cases {x y z : String} {p : String × String × String}
    (hp : p ∈ perms3 x y z) :
    p = (x, y, z) ∨ p = (x, z, y) ∨ p = (y, x, z) ∨ p = (y, z, x)
      ∨ p = (z, x, y) ∨ p = (z, y, x) := by
  simpa [perms3] using hp

lemma perm_edges_resolvable {ex : String} {db : List String} {x y z : String}
    {p : String × String × String} (hp : p ∈ perms3 x y z)
    (hxy : edgeResolvable ex db x y) (hyz : edgeResolvable ex db y z)
    (hzx : edgeResolvable ex db z x) :
    edgeResolvable ex db p.1 p.2.1 ∧ edgeResolvable ex db p.2.1 p.2.2
      ∧ edgeResolvable ex db p.2.2 p.1 := by
  rcases perm_mem_cases hp with rfl | rfl | rfl | rfl | rfl | rfl
  · exact ⟨hxy, hyz, hzx⟩
  · exact ⟨edgeResolvable_symm hzx, edgeResolvable_symm hyz, edgeResolvable_symm hxy⟩
  · exact ⟨edgeResolvable_symm hxy, edgeResolvable_symm hzx, edgeResolvable_symm hyz⟩
  · exact ⟨hyz, hzx, hxy⟩
  · exact ⟨hzx, hxy, hyz⟩
  · exact ⟨edgeResolvable_symm hyz, edgeResolvable_symm hxy, edgeResolvable_symm hzx⟩

lemma base_edges_resolvable {ex : String} {db : List String} {x y z : String}
    {p : String × String × String} (hp : p ∈ perms3 x y z)
    (h1 : edgeResolvable ex db p.1 p.2.1) (h2 : edgeResolvable ex db p.2.1 p.2.2)
    (h3 : edgeResolvable ex db p.2.2 p.1) :
    edgeResolvable ex db x y ∧ edgeResolvable ex db y z ∧ edgeResolvable ex db z x := by
  rcases perm_mem_cases hp with rfl | rfl | rfl | rfl | rfl | rfl
  · exact ⟨h1, h2, h3⟩
  · exact ⟨edgeResolvable_symm h3, edgeResolvable_symm h2, edgeResolvable_symm h1⟩
  · exact ⟨edgeResolvable_symm h1, edgeResolvable_symm h3, edgeResolvable_symm h2⟩
  · exact ⟨h3, h1, h2⟩
  · exact ⟨h2, h3, h1⟩
  · exact ⟨edgeResolvable_symm h2, edgeResolvable_symm h1, edgeResolvable_symm h3⟩

lemma mem_processPerms {ex start : String} {db ref : List String}
    (L : List (String × String × String))
    (hall : ∀ q ∈ L, q.1 = start →
      (resolveEdge ex db q.1 q.2.1).isSome = true
      ∧ (resolveEdge ex db q.2.1 q.2.2).isSome = true
      ∧ (resolveEdge ex db q.2.2 q.1).isSome = true)
    (p : String × String × String) (hp : p ∈ L) (hstart : p.1 = start)
    (t1 t2 t3 : TransactionSpec)
    (h1 : resolveEdge ex db p.1 p.2.1 = some t1)
    (h2 : resolveEdge ex db p.2.1 p.2.2 = some t2)
    (h3 : resolveEdge ex db p.2.2 p.1 = some t3)
    (hr1 : t1.instrument ∈ ref) (hr2 : t2.instrument ∈ ref) (hr3 : t3.instrument ∈ ref) :
    [t1, t2, t3] ∈ processPerms ex start db ref L := by
  induction L with
  | nil => cases hp
  | cons q rest ih =>
    obtain ⟨s1, s2, s3⟩ := q
    rcases List.mem_cons.mp hp with rfl | hmem
    · simp only [processPerms]
      rw [if_pos hstart]
      simp only [h1, h2, h3]
      rw [if_pos ⟨hr1, hr2, hr3⟩]
      exact List.mem_append_left _ (List.mem_singleton.mpr rfl)
    · simp only [processPerms]
      by_cases hq1 : s1 = start
      · obtain ⟨e1, e2, e3⟩ := hall (s1, s2, s3) (List.mem_cons_self _ _) hq1
        obtain ⟨u1, hu1⟩ := Option.isSome_iff_exists.mp e1
        obtain ⟨u2, hu2⟩ := Option.isSome_iff_exists.mp e2
        obtain ⟨u3, hu3⟩ := Option.isSome_iff_exists.mp e3
        rw [if_pos hq1]
        simp only [hu1, hu2, hu3]
        refine List.mem_append_right _ ?_
        exact ih (fun r hr => hall r (List.mem_cons_of_mem _ hr)) hmem
      · rw [if_neg hq1]
        exact ih (fun r hr => hall r (List.mem_cons_of_mem _ hr)) hmem

/-- Claim C3: a permutation of an enumerated 3-subset that starts at
the start asset, whose three directed edges all resolve against the
database instrument list, and whose resolved instruments are all in the
reference-data list, is emitted by the topology builder — no failure of
a different permutation can suppress it. -/
theorem resolvable_permutation_emitted (ex start : String)
    (symbols db ref : List String) (x y z : String)
    (hc : (x, y, z) ∈ combinations3 symbols)
    (p : String × String × String) (hp : p ∈ perms3 x y z) (hstart : p.1 = start)
    (t1 t2 t3 : TransactionSpec)
    (h1 : resolveEdge ex db p.1 p.2.1 = some t1)
    (h2 : resolveEdge ex db p.2.1 p.2.2 = some t2)
    (h3 : resolveEdge ex db p.2.2 p.1 = some t3)
    (hr1 : t1.instrument ∈ ref) (hr2 : t2.instrument ∈ ref) (hr3 : t3.instrument ∈ ref) :
    [t1, t2, t3] ∈ buildTopology ex start symbols db ref := by
  unfold buildTopology
  refine List.mem_flatMap.mpr ⟨(x, y, z), hc, ?_⟩
  have hbase := base_edges_resolvable hp (resolveEdge_resolvable h1)
    (resolveEdge_resolvable h2) (resolveEdge_resolvable h3)
  refine mem_processPerms (perms3 x y z) ?_ p hp hstart t1 t2 t3 h1 h2 h3 hr1 hr2 hr3
  intro q hq _
  obtain ⟨e1, e2, e3⟩ := perm_edges_resolvable hq hbase.1 hbase.2.1 hbase.2.2
  exact ⟨resolveEdge_isSome e1, resolveEdge_isSome e2, resolveEdge_isSome e3⟩

/-- Witness for C3: permutation (A, B, C) of universe [A, B, C] is
emitted over the concrete database and reference lists. -/
theorem resolvable_permutation_emitted_witness :
    triW ∈ buildTopology "E" "A" ["A", "B", "C"] dbW dbW :=
  resolvable_permutation_emitted "E" "A" ["A", "B", "C"] dbW dbW "A" "B" "C"
    (by decide) ("A", "B", "C") (by decide) rfl
    (triW.get ⟨0, by decide⟩) (triW.get ⟨1, by decide⟩) (triW.get ⟨2, by decide⟩)
    (by decide) (by decide) (by decide) (by decide) (by decide) (by decide)

lemma processPerms_inv {ex start : String} {db ref : List String}
    (L : List (String × String × String)) (tri : List TransactionSpec)
    (h : tri ∈ processPerms ex start db ref L) :
    ∃ q ∈ L, q.1 = start ∧ ∃ t1 t2 t3 : TransactionSpec,
      resolveEdge ex db q.1 q.2.1 = some t1
      ∧ resolveEdge ex db q.2.1 q.2.2 = some t2
      ∧ resolveEdge ex db q.2.2 q.1 = some t3
      ∧ t1.instrument ∈ ref ∧ t2.instrument ∈ ref ∧ t3.instrument ∈ ref
      ∧ tri = [t1, t2, t3] := by
  induction L with
  | nil => simp [processPerms] at h
  | cons q rest ih =>
    obtain ⟨s1, s2, s3⟩ := q
    simp only [processPerms] at h
    by_cases hq1 : s1 = start
    · rw [if_pos hq1] at h
      cases he1 : resolveEdge ex db s1 s2 with
      | none =>
        simp only [he1] at h
        exact absurd h (List.not_mem_nil _)
      | some t1 =>
        simp only [he1] at h
        cases he2 : resolveEdge ex db s2 s3 with
        | none =>
          simp only [he2] at h
          exact absurd h (List.not_mem_nil _)
        | some t2 =>
          simp only [he2] at h
          cases he3 : resolveEdge ex db s3 s1 with
          | none =>
            simp only [he3] at h
            exact absurd h (List.not_mem_nil _)
          | some t3 =>
            simp only [he3] at h
            rcases List.mem_append.mp h with hL | hR
            · by_cases hr : t1.instrument ∈ ref ∧ t2.instrument ∈ ref ∧ t3.instrument ∈ ref
              · rw [if_pos hr] at hL
                exact ⟨(s1, s2, s3), List.mem_cons_self _ _, hq1, t1, t2, t3,
                  he1, he2, he3, hr.1, hr.2.1, hr.2.2, List.mem_singleton.mp hL⟩
              · rw [if_neg hr] at hL
                cases hL
            · obtain ⟨q2, hq2, hrest⟩ := ih hR
              exact ⟨q2, List.mem_cons_of_mem _ hq2, hrest⟩
    · rw [if_neg hq1] at h
      obtain ⟨q2, hq2, hrest⟩ := ih h
      exact ⟨q2, List.mem_cons_of_mem _ hq2, hrest⟩

/-- Claim C4: every triangle the topology builder emits satisfies the
closure invariant: the first transaction's source and the third
transaction's target are the (exchange-scoped) start asset, each
transaction's target is the next one's source, and every resolved
instrument identifier is a member of both the database and the
reference-data instrument lists. -/
theorem topology_closure (ex start : String) (symbols db ref : List String)
    (tri : List TransactionSpec) (htri : tri ∈ buildTopology ex start symbols db ref) :
    ∃ t1 t2 t3 : TransactionSpec, tri = [t1, t2, t3]
      ∧ t1.source = ex ++ "_" ++ start ∧ t3.target = ex ++ "_" ++ start
      ∧ t1.target = t2.source ∧ t2.target = t3.source
      ∧ t1.instrument ∈ db ∧ t1.instrument ∈ ref
      ∧ t2.instrument ∈ db ∧ t2.instrument ∈ ref
      ∧ t3.instrument ∈ db ∧ t3.instrument ∈ ref := by
  unfold buildTopology at htri
  obtain ⟨c, hc, h⟩ := List.mem_flatMap.mp htri
  obtain ⟨q, hq, hstart, t1, t2, t3, he1, he2, he3, hr1, hr2, hr3, rfl⟩ :=
    processPerms_inv _ _ h
  obtain ⟨hs1, ht1, hd1⟩ := resolveEdge_fields he1
  obtain ⟨hs2, ht2, hd2⟩ := resolveEdge_fields he2
  obtain ⟨hs3, ht3, hd3⟩ := resolveEdge_fields he3
  refine ⟨t1, t2, t3, rfl, ?_, ?_, ?_, ?_, hd1, hr1, hd2, hr2, hd3, hr3⟩
  · rw [hs1, hstart]
  · rw [ht3, hstart]
  · rw [ht1, hs2]
  · rw [ht2, hs3]

/-- Witness for C4 at the concrete emitted triangle `triW`. -/
theorem topology_closure_witness :
    ∃ t1 t2 t3 : TransactionSpec, triW = [t1, t2, t3]
      ∧ t1.source = "E" ++ "_" ++ "A" ∧ t3.target = "E" ++ "_" ++ "A"
      ∧ t1.target = t2.source ∧ t2.target = t3.source
      ∧ t1.instrument ∈ dbW ∧ t1.instrument ∈ dbW
      ∧ t2.instrument ∈ dbW ∧ t2.instrument ∈ dbW
      ∧ t3.instrument ∈ dbW ∧ t3.instrument ∈ dbW :=
  topology_closure "E" "A" ["A", "B", "C"] dbW dbW triW (by decide)
